import Mathlib

/-!
Brainground, `DataAcquisition::readEDFFile`.

A shallow embedding of `src/BCI/src/DataAcquisition.{h,cpp}`.

`readEDFFile` is a thin wrapper around an EDF library whose header
(`edflib.h`) is not in the repository.  The library is a parameter of the
model (`EdfLib`): one answer function per library entry point the source calls.
The wrapper is embedded statement by statement over an explicit state
(`St`): the `EEGData` under construction plus the trace of everything the call
does to the outside world (library calls and console writes), in program order.

Modelling decisions:

* `int` values are `Int`.  The only arithmetic the source does on them is the
  loop increment below `numChannels`, which cannot overflow.
* `double` samples are an arbitrary carrier `α` with a zero: the wrapper never
  computes on samples, it only value-initialises buffers (`0.0`) and copies.
* `EEGData eegData;` leaves the two `int` members uninitialised.  Their
  indeterminate values are an explicit input (`Indeterminate`).
* `std::vector::resize(n)` with an `int` `n < 0` converts `n` to a huge
  `size_type` and throws `std::length_error`; the exception leaves
  `readEDFFile`.  Memory is otherwise assumed sufficient.
* `edf_get_label` writes a NUL terminated string into the caller's buffer and
  `edf_read_physical_samples` writes samples at the start of the caller's
  buffer; neither writes past the end of the buffer it is given.
-/

namespace Brainground

/-! ## Data model (`DataAcquisition.h`) -/

/-- The struct `EEGData` of `DataAcquisition.h`. -/
structure EEGData (α : Type) where
  /-- EEG signal data (channels x samples). -/
  signals : List (List α)
  /-- Channel names. -/
  channelLabels : List String
  /-- Sample rate (Hz). -/
  sampleRate : Int
  /-- Number of EEG channels. -/
  numChannels : Int
  deriving DecidableEq, Repr

/-- The values the two uninitialised `int` members of a default-initialised
`EEGData` happen to hold. -/
structure Indeterminate where
  sampleRate : Int
  numChannels : Int
  deriving DecidableEq, Repr

/-- The declaration `EEGData eegData;`: both vectors are empty, the two `int`
members are indeterminate. -/
def EEGData.declared {α : Type} (u : Indeterminate) : EEGData α :=
  { signals := [], channelLabels := [], sampleRate := u.sampleRate, numChannels := u.numChannels }

/-! ## The EDF library (external) -/

/-- The answers of the EDF library, one function per entry point that
`readEDFFile` calls.  `edf_get_label` gives the string the library writes into
the label buffer; `edf_read_physical_samples` gives the samples the library
writes at the start of the sample buffer (possibly fewer than the `n` asked
for). -/
structure EdfLib (α : Type) where
  EDFLIB_READ_ALL_ANNOTATIONS : Int
  edfopen_file_readonly : String → Int → Int
  edf_get_signal_count : Int → Int
  edf_get_sample_frequency : Int → Int → Int
  edf_get_label : Int → Int → String
  edf_get_sample_count : Int → Int → Int
  edf_read_physical_samples : Int → Int → Int → List α

/-- What one call of `readEDFFile` does to the outside world. -/
inductive Event where
  | edfopen_file_readonly (filename : String) (flag : Int)
  | edf_get_signal_count (handle : Int)
  | edf_get_sample_frequency (handle : Int) (signal : Int)
  | edf_get_label (handle : Int) (signal : Int)
  | edf_get_sample_count (handle : Int) (signal : Int)
  | edf_read_physical_samples (handle : Int) (signal : Int) (n : Int)
  | edfclose_file (handle : Int)
  | cout (text : String)
  | cerr (text : String)
  deriving DecidableEq, Repr

/-- The handle a library call is made on (`none` for the open call and for
console writes). -/
def Event.handle : Event → Option Int
  | .edfopen_file_readonly _ _ => none
  | .edf_get_signal_count h => some h
  | .edf_get_sample_frequency h _ => some h
  | .edf_get_label h _ => some h
  | .edf_get_sample_count h _ => some h
  | .edf_read_physical_samples h _ _ => some h
  | .edfclose_file h => some h
  | .cout _ => none
  | .cerr _ => none

/-- Console writes (`std::cout`, `std::cerr`). -/
def Event.isConsole : Event → Bool
  | .cout _ => true
  | .cerr _ => true
  | _ => false

/-- Calls into the EDF library. -/
def Event.isLibraryCall (e : Event) : Bool := !e.isConsole

/-- The call `edfclose_file(h)`. -/
def Event.isClose : Event → Bool
  | .edfclose_file _ => true
  | _ => false

/-- The call `edf_get_sample_frequency(_, _)`. -/
def Event.isSampleFrequency : Event → Bool
  | .edf_get_sample_frequency _ _ => true
  | _ => false

/-! ## `std::vector` operations -/

/-- Exceptions that leave `readEDFFile`. -/
inductive Exn where
  | length_error
  deriving DecidableEq, Repr

/-- The call `v.resize(n)` with an `int` argument: a negative `n` becomes a
`size_type` above `max_size()` and throws; otherwise `v` is cut to `n`
elements or padded with value-initialised elements. -/
def resize {β : Type} (fill : β) (v : List β) (n : Int) : Except Exn (List β) :=
  if n < 0 then .error .length_error
  else .ok (v.take n.toNat ++ List.replicate (n.toNat - v.length) fill)

/-- The constructor `std::vector<double> buffer(n)` with an `int` argument. -/
def newBuffer {α : Type} [Zero α] (n : Int) : Except Exn (List α) :=
  if n < 0 then .error .length_error
  else .ok (List.replicate n.toNat 0)

/-- The buffer after the library wrote `written` at its start. -/
def writeInto {α : Type} (buffer written : List α) : List α :=
  written.take buffer.length ++ buffer.drop written.length

/-! ## `DataAcquisition.cpp` -/

/-- The state of one call: the trace so far and the local `eegData`. -/
structure St (α : Type) where
  trace : List Event
  eegData : EEGData α
  deriving DecidableEq, Repr

/-- The outcome of one call: everything it did, and the value it returned or
the exception that left it. -/
structure Run (α : Type) where
  trace : List Event
  result : Except Exn (EEGData α)

/-- The function `DataAcquisition::printMetadata`: the console writes, one per
statement. -/
def printMetadata {α : Type} (data : EEGData α) : List Event :=
  [ .cout "=== EDF File Metadata ===\n",
    .cout ("Number of Channels: " ++ toString data.numChannels ++ "\n"),
    .cout ("Sample Rate: " ++ toString data.sampleRate ++ " Hz\n"),
    .cout "Channels: " ]
  ++ data.channelLabels.map (fun label => Event.cout (label ++ " "))
  ++ [ .cout "\n" ]

/-- The loop `for (int i = 0; i < numChannels; i++)` over the labels (lines
31-35), given the indices still to visit. -/
def readLabels {α : Type} (lib : EdfLib α) (edfFile : Int) : List Nat → St α → St α
  | [], s => s
  | i :: rest, s =>
    readLabels lib edfFile rest
      { trace := s.trace ++ [.edf_get_label edfFile i],
        eegData := { s.eegData with
          channelLabels := s.eegData.channelLabels.set i (lib.edf_get_label edfFile i) } }

/-- The loop `for (int ch = 0; ch < numChannels; ch++)` over the signals (lines
38-46), given the indices still to visit.  An exception ends the loop. -/
def readSignals {α : Type} [Zero α] (lib : EdfLib α) (edfFile : Int) :
    List Nat → St α → St α × Option Exn
  | [], s => (s, none)
  | ch :: rest, s =>
    let numSamples := lib.edf_get_sample_count edfFile ch
    let s1 : St α := { s with trace := s.trace ++ [.edf_get_sample_count edfFile ch] }
    match resize 0 (s1.eegData.signals.getD ch []) numSamples with
    | .error e => (s1, some e)
    | .ok resized =>
      let s2 : St α := { s1 with
        eegData := { s1.eegData with signals := s1.eegData.signals.set ch resized } }
      match newBuffer numSamples with
      | .error e => (s2, some e)
      | .ok zeros =>
        let buffer := writeInto zeros (lib.edf_read_physical_samples edfFile ch numSamples)
        let s3 : St α := { s2 with
          trace := s2.trace ++ [.edf_read_physical_samples edfFile ch numSamples] }
        readSignals lib edfFile rest
          { s3 with eegData := { s3.eegData with signals := s3.eegData.signals.set ch buffer } }

/-- The function `DataAcquisition::readEDFFile`. -/
def readEDFFile {α : Type} [Zero α] (lib : EdfLib α) (u : Indeterminate)
    (filename : String) : Run α :=
  let eegData : EEGData α := EEGData.declared u
  let edfFile := lib.edfopen_file_readonly filename lib.EDFLIB_READ_ALL_ANNOTATIONS
  let t0 : List Event := [.edfopen_file_readonly filename lib.EDFLIB_READ_ALL_ANNOTATIONS]
  if edfFile < 0 then
    { trace := t0 ++ [.cerr ("Error opening EDF file: " ++ filename ++ "\n")],
      result := .ok eegData }
  else
    let eegData := { eegData with numChannels := lib.edf_get_signal_count edfFile }
    let eegData := { eegData with sampleRate := lib.edf_get_sample_frequency edfFile 0 }
    let t1 := t0 ++ [.edf_get_signal_count edfFile, .edf_get_sample_frequency edfFile 0]
      ++ [.cout ("EDF File Loaded: " ++ filename ++ "\n"),
          .cout ("Channels: " ++ toString eegData.numChannels ++ " | Sample Rate: "
            ++ toString eegData.sampleRate ++ " Hz\n")]
    match resize [] eegData.signals eegData.numChannels with
    | .error e => { trace := t1, result := .error e }
    | .ok signals =>
      let eegData := { eegData with signals := signals }
      match resize "" eegData.channelLabels eegData.numChannels with
      | .error e => { trace := t1, result := .error e }
      | .ok labels =>
        let eegData := { eegData with channelLabels := labels }
        let s := readLabels lib edfFile (List.range eegData.numChannels.toNat)
          { trace := t1, eegData := eegData }
        match readSignals lib edfFile (List.range s.eegData.numChannels.toNat) s with
        | (s, some e) => { trace := s.trace, result := .error e }
        | (s, none) =>
          { trace := s.trace ++ [.edfclose_file edfFile] ++ printMetadata s.eegData,
            result := .ok s.eegData }

/-- The handle the open call of `readEDFFile` gets for `filename` (line 13). -/
abbrev handleOf {α : Type} (lib : EdfLib α) (filename : String) : Int :=
  lib.edfopen_file_readonly filename lib.EDFLIB_READ_ALL_ANNOTATIONS

/-! ## What a completed read produces -/

/-- The buffer `readEDFFile` stores for channel `ch`: a zeroed buffer of the
declared size, overwritten at its start by what the library delivers. -/
def channelBuffer {α : Type} [Zero α] (lib : EdfLib α) (edfFile : Int) (ch : Nat) : List α :=
  writeInto (List.replicate (lib.edf_get_sample_count edfFile ch).toNat 0)
    (lib.edf_read_physical_samples edfFile ch (lib.edf_get_sample_count edfFile ch))

/-- The library calls of one iteration of the signal loop. -/
def channelEvents {α : Type} (lib : EdfLib α) (edfFile : Int) (ch : Nat) : List Event :=
  [.edf_get_sample_count edfFile ch,
   .edf_read_physical_samples edfFile ch (lib.edf_get_sample_count edfFile ch)]

/-- The value a completed read returns on handle `h`. -/
def decoded {α : Type} [Zero α] (lib : EdfLib α) (h : Int) : EEGData α :=
  { signals := (List.range (lib.edf_get_signal_count h).toNat).map (channelBuffer lib h),
    channelLabels :=
      (List.range (lib.edf_get_signal_count h).toNat).map (fun (i : Nat) => lib.edf_get_label h (i : Int)),
    sampleRate := lib.edf_get_sample_frequency h 0,
    numChannels := lib.edf_get_signal_count h }

/-- The trace of a read up to the end of the two loops, on handle `h`. -/
def tracePrefix {α : Type} (lib : EdfLib α) (filename : String) (h : Int) : List Event :=
  [.edfopen_file_readonly filename lib.EDFLIB_READ_ALL_ANNOTATIONS,
   .edf_get_signal_count h, .edf_get_sample_frequency h 0,
   .cout ("EDF File Loaded: " ++ filename ++ "\n"),
   .cout ("Channels: " ++ toString (lib.edf_get_signal_count h) ++ " | Sample Rate: "
      ++ toString (lib.edf_get_sample_frequency h 0) ++ " Hz\n")]
  ++ (List.range (lib.edf_get_signal_count h).toNat).map (fun (i : Nat) => Event.edf_get_label h (i : Int))
  ++ (List.range (lib.edf_get_signal_count h).toNat).flatMap (channelEvents lib h)

/-! ## Test libraries -/

/-- A two channel file with labels "Fp1" and "Fp2", 256 Hz, three data records
with one sample per record on channel 0 and two on channel 1, opened on
handle `0`. -/
def libFp : EdfLib ℚ where
  EDFLIB_READ_ALL_ANNOTATIONS := 2
  edfopen_file_readonly := fun _ _ => 0
  edf_get_signal_count := fun _ => 2
  edf_get_sample_frequency := fun _ _ => 256
  edf_get_label := fun _ i => if i = 0 then "Fp1" else "Fp2"
  edf_get_sample_count := fun _ ch => if ch = 0 then 3 else 6
  edf_read_physical_samples := fun _ ch _ => if ch = 0 then [1, 2, 3] else [4, 5, 6, 7, 8, 9]

/-- A library that cannot open the file: the open call answers `-1`. -/
def libNoFile : EdfLib ℚ where
  EDFLIB_READ_ALL_ANNOTATIONS := 2
  edfopen_file_readonly := fun _ _ => -1
  edf_get_signal_count := fun _ => 0
  edf_get_sample_frequency := fun _ _ => 0
  edf_get_label := fun _ _ => ""
  edf_get_sample_count := fun _ _ => 0
  edf_read_physical_samples := fun _ _ _ => []


/-- A one channel file cut off in its data: four samples are declared and the
read delivers two. -/
def libShort : EdfLib ℚ where
  EDFLIB_READ_ALL_ANNOTATIONS := 2
  edfopen_file_readonly := fun _ _ => 0
  edf_get_signal_count := fun _ => 1
  edf_get_sample_frequency := fun _ _ => 256
  edf_get_label := fun _ _ => "Fp1"
  edf_get_sample_count := fun _ _ => 4
  edf_read_physical_samples := fun _ _ _ => [5, 7]

/-- A library that opens the file on handle `3`, reports one signal and
answers `-1` when asked for its sample count. -/
def libNeg : EdfLib ℚ where
  EDFLIB_READ_ALL_ANNOTATIONS := 2
  edfopen_file_readonly := fun _ _ => 3
  edf_get_signal_count := fun _ => 1
  edf_get_sample_frequency := fun _ _ => 256
  edf_get_label := fun _ _ => "Fp1"
  edf_get_sample_count := fun _ _ => -1
  edf_read_physical_samples := fun _ _ _ => []

/-! ## Calibration (inside the EDF library) -/

/-- Modelled from the spec: the calibration fields of a channel.  The
digital-to-physical conversion happens inside `edf_read_physical_samples`, in
the EDF library, which is not in the repository; the spec gives the fields as
digital minimum/maximum (integers) and physical minimum/maximum. -/
structure Calibration where
  digitalMin : Int
  digitalMax : Int
  physicalMin : ℚ
  physicalMax : ℚ

/-- Modelled from the spec: the gain of the missing library conversion,
`gain = (physicalMax - physicalMin) / (digitalMax - digitalMin)`. -/
def Calibration.gain (c : Calibration) : ℚ :=
  (c.physicalMax - c.physicalMin) / ((c.digitalMax : ℚ) - (c.digitalMin : ℚ))

/-- Modelled from the spec: the offset of the missing library conversion,
`offset = physicalMin - digitalMin * gain`. -/
def Calibration.offset (c : Calibration) : ℚ :=
  c.physicalMin - (c.digitalMin : ℚ) * c.gain

/-- Modelled from the spec: the missing library conversion of a digital sample
`d`, `physical = d * gain + offset`, in exact arithmetic. -/
def Calibration.physical (c : Calibration) (d : Int) : ℚ :=
  (d : ℚ) * c.gain + c.offset

/-- The calibration of the spec's example: digital range -32768..32767,
physical range -100.0..100.0. -/
def cal16 : Calibration :=
  { digitalMin := -32768, digitalMax := 32767, physicalMin := -100, physicalMax := 100 }

/-- A one channel file calibrated by `cal16` whose digital samples are `0`
and `32767`; the library delivers their physical values. -/
def libCal : EdfLib ℚ where
  EDFLIB_READ_ALL_ANNOTATIONS := 2
  edfopen_file_readonly := fun _ _ => 0
  edf_get_signal_count := fun _ => 1
  edf_get_sample_frequency := fun _ _ => 256
  edf_get_label := fun _ _ => "Fp1"
  edf_get_sample_count := fun _ _ => 2
  edf_read_physical_samples := fun _ _ _ => [cal16.physical 0, cal16.physical 32767]

/-! ## Lemmas on the vector operations -/

theorem foldl_set_length {β : Type} (f : Nat → β) (idx : List Nat) (l : List β) :
    (idx.foldl (fun acc i => acc.set i (f i)) l).length = l.length := by
  induction idx generalizing l with
  | nil => rfl
  | cons i rest ih => simp [List.foldl_cons, ih]

theorem foldl_set_getElem? {β : Type} (f : Nat → β) (idx : List Nat) (l : List β) (j : Nat) :
    (idx.foldl (fun acc i => acc.set i (f i)) l)[j]? =
      if j ∈ idx then (if j < l.length then some (f j) else none) else l[j]? := by
  induction idx generalizing l with
  | nil => simp
  | cons i rest ih =>
    rw [List.foldl_cons, ih]
    by_cases hj : j ∈ rest
    · simp [hj]
    · by_cases hij : j = i
      · subst hij
        simp [hj, List.getElem?_set]
      · have hij2 : ¬ i = j := fun h => hij h.symm
        simp [hj, hij, List.getElem?_set, hij2]

/-- Writing once at every index below the length, in order, gives the list of
the written values. -/
theorem foldl_set_range {β : Type} (f : Nat → β) (l : List β) :
    ((List.range l.length).foldl (fun acc i => acc.set i (f i)) l) =
      (List.range l.length).map f := by
  apply List.ext_getElem?
  intro j
  rw [foldl_set_getElem?]
  by_cases hj : j < l.length
  · simp [hj, List.getElem?_range]
  · simp [hj]
    have : l.length ≤ j := Nat.le_of_not_lt hj
    simp [List.getElem?_eq_none, this]

theorem resize_nil {β : Type} (fill : β) (n : Int) (hn : 0 ≤ n) :
    resize fill [] n = .ok (List.replicate n.toNat fill) := by
  have : ¬ n < 0 := not_lt.mpr hn
  simp [resize, this]

theorem resize_neg {β : Type} (fill : β) (v : List β) (n : Int) (hn : n < 0) :
    resize fill v n = .error .length_error := by
  simp [resize, hn]

theorem resize_ok_length {β : Type} (fill : β) (v : List β) (n : Int) (hn : 0 ≤ n) :
    ∃ w, resize fill v n = .ok w ∧ w.length = n.toNat := by
  have : ¬ n < 0 := not_lt.mpr hn
  refine ⟨v.take n.toNat ++ List.replicate (n.toNat - v.length) fill, by simp [resize, this], ?_⟩
  simp only [List.length_append, List.length_take, List.length_replicate]
  omega

theorem newBuffer_ok {α : Type} [Zero α] (n : Int) (hn : 0 ≤ n) :
    (newBuffer n : Except Exn (List α)) = .ok (List.replicate n.toNat 0) := by
  have : ¬ n < 0 := not_lt.mpr hn
  simp [newBuffer, this]

theorem writeInto_length {α : Type} (buffer written : List α) :
    (writeInto buffer written).length = buffer.length := by
  simp only [writeInto, List.length_append, List.length_take, List.length_drop]
  omega

/-- A zeroed buffer after the write: the delivered samples, then zeros. -/
theorem writeInto_replicate {α : Type} [Zero α] (n : Nat) (written : List α) :
    writeInto (List.replicate n (0 : α)) written =
      written.take n ++ List.replicate (n - written.length) 0 := by
  simp [writeInto, List.drop_replicate]

/-! ## The two loops -/

theorem readLabels_eq {α : Type} (lib : EdfLib α) (h : Int) (idx : List Nat) (s : St α) :
    readLabels lib h idx s =
      { trace := s.trace ++ idx.map (fun (i : Nat) => Event.edf_get_label h (i : Int)),
        eegData := { s.eegData with
          channelLabels :=
            idx.foldl (fun acc i => acc.set i (lib.edf_get_label h i)) s.eegData.channelLabels } } := by
  induction idx generalizing s with
  | nil => simp [readLabels]
  | cons i rest ih => simp [readLabels, ih]

theorem readSignals_eq_of_nonneg {α : Type} [Zero α] (lib : EdfLib α) (h : Int)
    (idx : List Nat) (s : St α)
    (hsc : ∀ ch ∈ idx, 0 ≤ lib.edf_get_sample_count h ch) :
    readSignals lib h idx s =
      ({ trace := s.trace ++ idx.flatMap (channelEvents lib h),
         eegData := { s.eegData with
           signals := idx.foldl (fun acc ch => acc.set ch (channelBuffer lib h ch))
             s.eegData.signals } }, none) := by
  induction idx generalizing s with
  | nil => simp [readSignals]
  | cons ch rest ih =>
    have h0 : 0 ≤ lib.edf_get_sample_count h ch := hsc ch (List.mem_cons_self _ _)
    have hrest : ∀ c ∈ rest, 0 ≤ lib.edf_get_sample_count h c :=
      fun c hc => hsc c (List.mem_cons_of_mem _ hc)
    obtain ⟨w, hw, _⟩ := resize_ok_length (0 : α) (s.eegData.signals.getD ch []) _ h0
    simp only [readSignals, hw, newBuffer_ok _ h0, ih _ hrest]
    simp [channelEvents, channelBuffer, List.set_set]

theorem readSignals_none {α : Type} [Zero α] (lib : EdfLib α) (h : Int)
    (idx : List Nat) (s : St α) (hnone : (readSignals lib h idx s).2 = none) :
    ∀ ch ∈ idx, 0 ≤ lib.edf_get_sample_count h ch := by
  induction idx generalizing s with
  | nil => simp
  | cons ch rest ih =>
    by_cases h0 : lib.edf_get_sample_count h ch < 0
    · simp [readSignals, resize_neg _ _ _ h0] at hnone
    · have h1 : 0 ≤ lib.edf_get_sample_count h ch := not_lt.mp h0
      obtain ⟨w, hw, _⟩ := resize_ok_length (0 : α) (s.eegData.signals.getD ch []) _ h1
      simp only [readSignals, hw, newBuffer_ok _ h1] at hnone
      intro c hc
      rcases List.mem_cons.mp hc with rfl | hc
      · exact h1
      · exact ih _ hnone c hc

/-- Whatever the signal loop does, it only adds sample-count and sample-read
calls on the handle to the trace. -/
theorem readSignals_trace {α : Type} [Zero α] (lib : EdfLib α) (h : Int)
    (idx : List Nat) (s : St α) :
    ∃ t, (readSignals lib h idx s).1.trace = s.trace ++ t ∧
      ∀ e ∈ t, e.isSampleFrequency = false ∧ e.isClose = false ∧ e.isConsole = false := by
  induction idx generalizing s with
  | nil => exact ⟨[], by simp [readSignals]⟩
  | cons ch rest ih =>
    by_cases h0 : lib.edf_get_sample_count h ch < 0
    · refine ⟨[.edf_get_sample_count h ch], ?_, ?_⟩
      · simp [readSignals, resize_neg _ _ _ h0]
      · simp [Event.isSampleFrequency, Event.isClose, Event.isConsole]
    · have h1 : 0 ≤ lib.edf_get_sample_count h ch := not_lt.mp h0
      obtain ⟨w, hw, _⟩ := resize_ok_length (0 : α) (s.eegData.signals.getD ch []) _ h1
      simp only [readSignals, hw, newBuffer_ok _ h1]
      obtain ⟨t, ht, hall⟩ := ih
        { trace := s.trace ++ [.edf_get_sample_count h ch] ++
            [.edf_read_physical_samples h ch (lib.edf_get_sample_count h ch)],
          eegData := { s.eegData with
            signals := (s.eegData.signals.set ch w).set ch
              (writeInto (List.replicate (lib.edf_get_sample_count h ch).toNat 0)
                (lib.edf_read_physical_samples h ch (lib.edf_get_sample_count h ch))) } }
      refine ⟨channelEvents lib h ch ++ t, ?_, ?_⟩
      · rw [ht]; simp [channelEvents]
      · intro e he
        rcases List.mem_append.mp he with he | he
        · simp only [channelEvents, List.mem_cons, List.mem_singleton, List.not_mem_nil,
            or_false] at he
          rcases he with rfl | rfl <;>
            simp [Event.isSampleFrequency, Event.isClose, Event.isConsole]
        · exact hall e he

/-! ## `readEDFFile` path by path -/

theorem foldl_set_range_replicate {β : Type} (f : Nat → β) (fill : β) (n : Nat) :
    ((List.range n).foldl (fun acc i => acc.set i (f i)) (List.replicate n fill)) =
      (List.range n).map f := by
  have := foldl_set_range f (List.replicate n fill)
  simpa using this

/-- Everything `printMetadata` does is a console write. -/
theorem printMetadata_events {α : Type} (data : EEGData α) :
    ∀ e ∈ printMetadata data,
      e.isConsole = true ∧ e.handle = none ∧ e.isClose = false ∧ e.isSampleFrequency = false := by
  intro e he
  simp only [printMetadata, List.mem_append, List.mem_cons, List.mem_map,
    List.mem_singleton, List.not_mem_nil, or_false] at he
  rcases he with ((rfl | rfl | rfl | rfl) | ⟨l, _, rfl⟩) | rfl <;>
    exact ⟨rfl, rfl, rfl, rfl⟩

/-- The open-failure path (lines 14-17). -/
theorem readEDFFile_open_failed {α : Type} [Zero α] (lib : EdfLib α) (u : Indeterminate)
    (filename : String)
    (hopen : handleOf lib filename < 0) :
    readEDFFile lib u filename =
      { trace := [.edfopen_file_readonly filename lib.EDFLIB_READ_ALL_ANNOTATIONS,
                  .cerr ("Error opening EDF file: " ++ filename ++ "\n")],
        result := .ok (EEGData.declared u) } := by
  simp [readEDFFile, hopen]

/-- The path on which the file opens and every count the library reports is a
count: the call runs to its `return` at line 54. -/
theorem readEDFFile_completes {α : Type} [Zero α] (lib : EdfLib α) (u : Indeterminate)
    (filename : String)
    (hopen : 0 ≤ handleOf lib filename)
    (hcount : 0 ≤ lib.edf_get_signal_count (handleOf lib filename))
    (hsc : ∀ ch : Nat, ch < (lib.edf_get_signal_count (handleOf lib filename)).toNat →
      0 ≤ lib.edf_get_sample_count (handleOf lib filename) ch) :
    readEDFFile lib u filename =
      { trace := tracePrefix lib filename (handleOf lib filename)
          ++ [.edfclose_file (handleOf lib filename)]
          ++ printMetadata (decoded lib (handleOf lib filename)),
        result := .ok (decoded lib (handleOf lib filename)) } := by
  have hnot : ¬ handleOf lib filename < 0 := not_lt.mpr hopen
  have hsc2 : ∀ ch ∈ List.range (lib.edf_get_signal_count (handleOf lib filename)).toNat,
      0 ≤ lib.edf_get_sample_count (handleOf lib filename) ch :=
    fun ch hch => hsc ch (List.mem_range.mp hch)
  simp only [readEDFFile, hnot, if_false, EEGData.declared, resize_nil _ _ hcount,
    readLabels_eq, readSignals_eq_of_nonneg _ _ _ _ hsc2, foldl_set_range_replicate]
  simp [tracePrefix, decoded]

/-- A call on an opened file that returns a value had counts reported to it. -/
theorem readEDFFile_ok_counts {α : Type} [Zero α] (lib : EdfLib α) (u : Indeterminate)
    (filename : String) (r : EEGData α)
    (hopen : 0 ≤ handleOf lib filename)
    (hr : (readEDFFile lib u filename).result = .ok r) :
    0 ≤ lib.edf_get_signal_count (handleOf lib filename) ∧
    ∀ ch : Nat, ch < (lib.edf_get_signal_count (handleOf lib filename)).toNat →
      0 ≤ lib.edf_get_sample_count (handleOf lib filename) ch := by
  have hnot : ¬ handleOf lib filename < 0 := not_lt.mpr hopen
  by_cases hcount : lib.edf_get_signal_count (handleOf lib filename) < 0
  · simp [readEDFFile, hnot, EEGData.declared, resize_neg _ _ _ hcount] at hr
  · have hc : 0 ≤ lib.edf_get_signal_count (handleOf lib filename) := not_lt.mp hcount
    refine ⟨hc, ?_⟩
    simp only [readEDFFile, hnot, if_false, EEGData.declared, resize_nil _ _ hc,
      readLabels_eq] at hr
    split at hr
    · simp at hr
    · rename_i s' heq
      intro ch hch
      exact readSignals_none lib _ _ _ (congrArg Prod.snd heq) ch (List.mem_range.mpr hch)

/-- On an opened file the trace starts with the open call, the signal count and
the sample frequency of signal 0, and no later call asks for a sample
frequency, whether the call returns or throws. -/
theorem readEDFFile_trace_of_open {α : Type} [Zero α] (lib : EdfLib α) (u : Indeterminate)
    (filename : String) (hopen : 0 ≤ handleOf lib filename) :
    ∃ t, (readEDFFile lib u filename).trace =
        [.edfopen_file_readonly filename lib.EDFLIB_READ_ALL_ANNOTATIONS,
         .edf_get_signal_count (handleOf lib filename),
         .edf_get_sample_frequency (handleOf lib filename) 0] ++ t ∧
      ∀ e ∈ t, e.isSampleFrequency = false := by
  have hnot : ¬ handleOf lib filename < 0 := not_lt.mpr hopen
  by_cases hcount : lib.edf_get_signal_count (handleOf lib filename) < 0
  · refine ⟨_, by simp [readEDFFile, hnot, EEGData.declared, resize_neg _ _ _ hcount]; rfl, ?_⟩
    simp [Event.isSampleFrequency]
  · have hc : 0 ≤ lib.edf_get_signal_count (handleOf lib filename) := not_lt.mp hcount
    simp only [readEDFFile, hnot, if_false, EEGData.declared, resize_nil _ _ hc, readLabels_eq]
    generalize hs0 : St.mk _ _ = s0
    obtain ⟨t, ht, hall⟩ := readSignals_trace lib (handleOf lib filename)
      (List.range (lib.edf_get_signal_count (handleOf lib filename)).toNat) s0
    have hlab : ∀ e ∈ List.map (fun (i : Nat) => Event.edf_get_label (handleOf lib filename) (i : Int))
        (List.range (lib.edf_get_signal_count (handleOf lib filename)).toNat),
        e.isSampleFrequency = false := by
      intro e he
      obtain ⟨i, _, rfl⟩ := List.mem_map.mp he
      rfl
    rcases hrs : readSignals lib (handleOf lib filename)
      (List.range (lib.edf_get_signal_count (handleOf lib filename)).toNat) s0 with ⟨s1, _ | e⟩
    · rw [hrs] at ht
      simp only at ht
      subst hs0
      refine ⟨_, by simp only [ht, List.append_assoc, List.cons_append, List.nil_append,
        List.singleton_append]; rfl, ?_⟩
      intro e he
      simp only [List.mem_cons, List.mem_append] at he
      rcases he with rfl | rfl | he | he | rfl | he
      · rfl
      · rfl
      · exact hlab e he
      · exact (hall e he).1
      · rfl
      · exact (printMetadata_events _ e he).2.2.2
    · rw [hrs] at ht
      simp only at ht
      subst hs0
      refine ⟨_, by simp only [ht, List.append_assoc, List.cons_append, List.nil_append,
        List.singleton_append]; rfl, ?_⟩
      intro e he
      simp only [List.mem_cons, List.mem_append] at he
      rcases he with rfl | rfl | he | he
      · rfl
      · rfl
      · exact hlab e he
      · exact (hall e he).1

/-- No call before the end of the two loops closes the file. -/
theorem tracePrefix_no_close {α : Type} (lib : EdfLib α) (filename : String) (h : Int) :
    ∀ e ∈ tracePrefix lib filename h, e.isClose = false := by
  intro e he
  simp only [tracePrefix, List.mem_append, List.mem_cons, List.mem_map, List.mem_flatMap,
    List.mem_range, channelEvents, List.not_mem_nil, or_false] at he
  rcases he with ((rfl | rfl | rfl | rfl | rfl) | ⟨i, _, rfl⟩) | ⟨ch, _, rfl | rfl⟩ <;> rfl

/-- The console writes before the end of the two loops are the two lines of
lines 23-24. -/
theorem tracePrefix_console {α : Type} (lib : EdfLib α) (filename : String) (h : Int) :
    (tracePrefix lib filename h).filter Event.isConsole =
      [.cout ("EDF File Loaded: " ++ filename ++ "\n"),
       .cout ("Channels: " ++ toString (lib.edf_get_signal_count h) ++ " | Sample Rate: "
          ++ toString (lib.edf_get_sample_frequency h 0) ++ " Hz\n")] := by
  have h1 : List.filter Event.isConsole
      (List.map (fun (i : Nat) => Event.edf_get_label h (i : Int))
        (List.range (lib.edf_get_signal_count h).toNat)) = [] := by
    rw [List.filter_eq_nil_iff]
    intro e he
    obtain ⟨i, _, rfl⟩ := List.mem_map.mp he
    simp [Event.isConsole]
  have h2 : List.filter Event.isConsole
      ((List.range (lib.edf_get_signal_count h).toNat).flatMap (channelEvents lib h)) = [] := by
    rw [List.filter_eq_nil_iff]
    intro e he
    obtain ⟨ch, _, hch⟩ := List.mem_flatMap.mp he
    simp only [channelEvents, List.mem_cons, List.mem_singleton, List.not_mem_nil,
      or_false] at hch
    rcases hch with rfl | rfl <;> simp [Event.isConsole]
  simp only [tracePrefix, List.filter_append, h1, h2, List.append_nil]
  simp [List.filter, Event.isConsole]

theorem printMetadata_console {α : Type} (data : EEGData α) :
    (printMetadata data).filter Event.isConsole = printMetadata data := by
  rw [List.filter_eq_self]
  intro e he
  exact (printMetadata_events data e he).1

/-- On an opened file the indeterminate members of `eegData` are overwritten
before anything reads them. -/
theorem readEDFFile_of_open_indeterminate {α : Type} [Zero α] (lib : EdfLib α)
    (u v : Indeterminate) (filename : String) (hopen : 0 ≤ handleOf lib filename) :
    readEDFFile lib u filename = readEDFFile lib v filename := by
  have hnot : ¬ handleOf lib filename < 0 := not_lt.mpr hopen
  simp only [readEDFFile, hnot, if_false, EEGData.declared]

/-- On the success path the three sizes agree. -/
theorem readEDFFile_of_open_sizes {α : Type} [Zero α] (lib : EdfLib α) (u : Indeterminate)
    (filename : String) (r : EEGData α) (hopen : 0 ≤ handleOf lib filename)
    (hr : (readEDFFile lib u filename).result = .ok r) :
    (r.signals.length : Int) = r.numChannels ∧ (r.channelLabels.length : Int) = r.numChannels := by
  obtain ⟨hcount, hsc⟩ := readEDFFile_ok_counts lib u filename r hopen hr
  rw [readEDFFile_completes lib u filename hopen hcount hsc] at hr
  have hr2 : decoded lib (handleOf lib filename) = r := by simpa using hr
  subst hr2
  simp [decoded, hcount]

/-- The read of the test file `libFp` completes. -/
theorem readEDFFile_libFp_returns :
    0 ≤ handleOf libFp "a.edf" →
    ∃ r, (readEDFFile libFp ⟨0, 0⟩ "a.edf").result = .ok r := by
  intro hopen
  exact ⟨_, by rw [readEDFFile_completes libFp ⟨0, 0⟩ "a.edf" hopen (by decide)
    (by intro ch _; simp only [libFp]; split <;> decide)]⟩

/-! ## Properties of `readEDFFile` -/

/-- C1: for a file that opens with `N` channels and `R` data records, where
the library reports `samplesPerRecord ch * R` samples for channel `ch`,
`readEDFFile` returns a value holding exactly `N` sample sequences, and the
sequence of every channel `ch` has length `samplesPerRecord ch * R`, which is
the sample count `edf_get_sample_count` reports for that channel. -/
theorem readEDFFile_signal_lengths {α : Type} [Zero α] (lib : EdfLib α) (u : Indeterminate)
    (filename : String) (N R : Nat) (samplesPerRecord : Nat → Nat)
    (hopen : 0 ≤ handleOf lib filename)
    (hN : lib.edf_get_signal_count (handleOf lib filename) = (N : Int))
    (hsc : ∀ ch : Nat, ch < N →
      lib.edf_get_sample_count (handleOf lib filename) ch = ((samplesPerRecord ch * R : Nat) : Int)) :
    ∃ r, (readEDFFile lib u filename).result = .ok r ∧
      r.signals.length = N ∧
      ∀ (ch : Nat) (hch : ch < r.signals.length),
        (r.signals.get ⟨ch, hch⟩).length = samplesPerRecord ch * R ∧
        ((r.signals.get ⟨ch, hch⟩).length : Int) =
          lib.edf_get_sample_count (handleOf lib filename) ch := by
  have hcount : 0 ≤ lib.edf_get_signal_count (handleOf lib filename) := by rw [hN]; omega
  have hnat : (lib.edf_get_signal_count (handleOf lib filename)).toNat = N := by rw [hN]; simp
  have hsc0 : ∀ ch : Nat, ch < (lib.edf_get_signal_count (handleOf lib filename)).toNat →
      0 ≤ lib.edf_get_sample_count (handleOf lib filename) ch := by
    intro ch hch
    rw [hsc ch (hnat ▸ hch)]
    omega
  refine ⟨decoded lib (handleOf lib filename), ?_, ?_, ?_⟩
  · rw [readEDFFile_completes lib u filename hopen hcount hsc0]
  · simp [decoded, hnat]
  · intro ch hch
    have hlt : ch < N := by simpa [decoded, hnat] using hch
    have hlen : (channelBuffer lib (handleOf lib filename) ch).length =
        samplesPerRecord ch * R := by
      rw [channelBuffer, writeInto_length, List.length_replicate, hsc ch hlt, Int.toNat_ofNat]
    have hget : (decoded lib (handleOf lib filename)).signals.get ⟨ch, hch⟩ =
        channelBuffer lib (handleOf lib filename) ch := by
      simp [decoded]
    rw [hget, hlen, hsc ch hlt]
    exact ⟨rfl, rfl⟩

/-- Witness of C1: the two channel file `libFp`, three data records with one
and two samples per record. -/
theorem readEDFFile_signal_lengths_witness :
    0 ≤ handleOf libFp "a.edf" ∧
    ∃ r, (readEDFFile libFp ⟨0, 0⟩ "a.edf").result = .ok r ∧
      r.signals.length = 2 ∧
      ∀ (ch : Nat) (hch : ch < r.signals.length),
        (r.signals.get ⟨ch, hch⟩).length = (if ch = 0 then 1 else 2) * 3 ∧
        ((r.signals.get ⟨ch, hch⟩).length : Int) =
          libFp.edf_get_sample_count (handleOf libFp "a.edf") ch :=
  ⟨by decide,
   readEDFFile_signal_lengths libFp ⟨0, 0⟩ "a.edf" 2 3 (fun ch => if ch = 0 then 1 else 2)
    (by decide) rfl
    (by
      intro ch hch
      interval_cases ch <;> rfl)⟩

/-- C2: for a file that opens, every value `readEDFFile` returns has one
channel label per channel and entry `i` is the label the library gives for
signal `i`, in channel order; and the call does return a value whenever the
signal count and the sample counts the library reports are counts. -/
theorem readEDFFile_channelLabels {α : Type} [Zero α] (lib : EdfLib α) (u : Indeterminate)
    (filename : String) (hopen : 0 ≤ handleOf lib filename) :
    (∀ r, (readEDFFile lib u filename).result = .ok r →
      (r.channelLabels.length : Int) = lib.edf_get_signal_count (handleOf lib filename) ∧
      ∀ (i : Nat) (hi : i < r.channelLabels.length),
        r.channelLabels.get ⟨i, hi⟩ = lib.edf_get_label (handleOf lib filename) i) ∧
    (0 ≤ lib.edf_get_signal_count (handleOf lib filename) →
      (∀ ch : Nat, ch < (lib.edf_get_signal_count (handleOf lib filename)).toNat →
        0 ≤ lib.edf_get_sample_count (handleOf lib filename) ch) →
      ∃ r, (readEDFFile lib u filename).result = .ok r) := by
  constructor
  · intro r hr
    obtain ⟨hcount, hsc⟩ := readEDFFile_ok_counts lib u filename r hopen hr
    rw [readEDFFile_completes lib u filename hopen hcount hsc] at hr
    have hr2 : decoded lib (handleOf lib filename) = r := by simpa using hr
    subst hr2
    refine ⟨by simp [decoded, hcount], ?_⟩
    intro i hi
    simp [decoded]
  · intro hcount hsc
    exact ⟨_, by rw [readEDFFile_completes lib u filename hopen hcount hsc]⟩

/-- Witness of C2: the two channel file with labels "Fp1" and "Fp2" yields
these two labels, in this order. -/
theorem readEDFFile_channelLabels_witness :
    0 ≤ handleOf libFp "a.edf" ∧
    ∃ r, (readEDFFile libFp ⟨0, 0⟩ "a.edf").result = .ok r ∧
      r.channelLabels.length = 2 ∧
      r.channelLabels[0]? = some "Fp1" ∧ r.channelLabels[1]? = some "Fp2" := by
  have hopen : 0 ≤ handleOf libFp "a.edf" := by decide
  have h := readEDFFile_channelLabels libFp ⟨0, 0⟩ "a.edf" hopen
  obtain ⟨r, hr⟩ := h.2 (by decide) (by intro ch _; simp only [libFp]; split <;> decide)
  obtain ⟨hlen, hget⟩ := h.1 r hr
  have hlen2 : r.channelLabels.length = 2 := by
    have : (r.channelLabels.length : Int) = 2 := hlen
    omega
  refine ⟨hopen, r, hr, hlen2, ?_, ?_⟩
  · rw [List.getElem?_eq_getElem (by omega)]
    exact congrArg some (hget 0 (by omega))
  · rw [List.getElem?_eq_getElem (by omega)]
    exact congrArg some (hget 1 (by omega))

/-- C5: when the file cannot be opened (the open call answers a negative
handle), `readEDFFile` makes no library call besides that open call and
returns a value whose `signals` and `channelLabels` are both empty. -/
theorem readEDFFile_open_failure_aborts {α : Type} [Zero α] (lib : EdfLib α)
    (u : Indeterminate) (filename : String) (hopen : handleOf lib filename < 0) :
    (readEDFFile lib u filename).trace.filter Event.isLibraryCall =
      [.edfopen_file_readonly filename lib.EDFLIB_READ_ALL_ANNOTATIONS] ∧
    ∃ r, (readEDFFile lib u filename).result = .ok r ∧
      r.signals = [] ∧ r.channelLabels = [] := by
  rw [readEDFFile_open_failed lib u filename hopen]
  exact ⟨by simp [Event.isLibraryCall, Event.isConsole], _, rfl, rfl, rfl⟩

/-- Witness of C5: the library `libNoFile`, whose open call answers `-1`. -/
theorem readEDFFile_open_failure_aborts_witness :
    handleOf libNoFile "missing.edf" < 0 ∧
    (readEDFFile libNoFile ⟨256, 7⟩ "missing.edf").trace.filter Event.isLibraryCall =
      [.edfopen_file_readonly "missing.edf" 2] ∧
    ∃ r, (readEDFFile libNoFile ⟨256, 7⟩ "missing.edf").result = .ok r ∧
      r.signals = [] ∧ r.channelLabels = [] :=
  ⟨by decide, readEDFFile_open_failure_aborts libNoFile ⟨256, 7⟩ "missing.edf" (by decide)⟩

/-- C9: for a file that opens, every value `readEDFFile` returns has as
`sampleRate` the sample frequency the library gives for signal 0, so that it
is the sample frequency of every channel when all channels have the same rate;
the only sample frequency the call asks the library for is that of signal 0;
and the call does return a value whenever the reported counts are counts. -/
theorem readEDFFile_sampleRate {α : Type} [Zero α] (lib : EdfLib α) (u : Indeterminate)
    (filename : String) (hopen : 0 ≤ handleOf lib filename) :
    (∀ r, (readEDFFile lib u filename).result = .ok r →
      r.sampleRate = lib.edf_get_sample_frequency (handleOf lib filename) 0 ∧
      ((∀ ch : Nat, ch < (lib.edf_get_signal_count (handleOf lib filename)).toNat →
          lib.edf_get_sample_frequency (handleOf lib filename) ch =
            lib.edf_get_sample_frequency (handleOf lib filename) 0) →
        ∀ ch : Nat, ch < (lib.edf_get_signal_count (handleOf lib filename)).toNat →
          r.sampleRate = lib.edf_get_sample_frequency (handleOf lib filename) ch)) ∧
    (readEDFFile lib u filename).trace.filter Event.isSampleFrequency =
      [.edf_get_sample_frequency (handleOf lib filename) 0] ∧
    (0 ≤ lib.edf_get_signal_count (handleOf lib filename) →
      (∀ ch : Nat, ch < (lib.edf_get_signal_count (handleOf lib filename)).toNat →
        0 ≤ lib.edf_get_sample_count (handleOf lib filename) ch) →
      ∃ r, (readEDFFile lib u filename).result = .ok r) := by
  refine ⟨?_, ?_, ?_⟩
  · intro r hr
    obtain ⟨hcount, hsc⟩ := readEDFFile_ok_counts lib u filename r hopen hr
    rw [readEDFFile_completes lib u filename hopen hcount hsc] at hr
    have hr2 : decoded lib (handleOf lib filename) = r := by simpa using hr
    subst hr2
    refine ⟨rfl, ?_⟩
    intro hsame ch hch
    exact (hsame ch hch).symm
  · obtain ⟨t, ht, hall⟩ := readEDFFile_trace_of_open lib u filename hopen
    have ht0 : List.filter Event.isSampleFrequency t = [] := by
      rw [List.filter_eq_nil_iff]
      intro e he
      simp [hall e he]
    rw [ht, List.filter_append, ht0]
    simp [List.filter, Event.isSampleFrequency]
  · intro hcount hsc
    exact ⟨_, by rw [readEDFFile_completes lib u filename hopen hcount hsc]⟩

/-- Witness of C9: the file `libFp`, all of whose channels are sampled at
256 Hz. -/
theorem readEDFFile_sampleRate_witness :
    0 ≤ handleOf libFp "a.edf" ∧
    ∃ r, (readEDFFile libFp ⟨0, 0⟩ "a.edf").result = .ok r ∧ r.sampleRate = 256 ∧
      (∀ ch : Nat, ch < 2 → r.sampleRate = libFp.edf_get_sample_frequency 0 ch) ∧
      (readEDFFile libFp ⟨0, 0⟩ "a.edf").trace.filter Event.isSampleFrequency =
        [.edf_get_sample_frequency 0 0] := by
  have hopen : 0 ≤ handleOf libFp "a.edf" := by decide
  have h := readEDFFile_sampleRate libFp ⟨0, 0⟩ "a.edf" hopen
  obtain ⟨r, hr⟩ := h.2.2 (by decide) (by intro ch _; simp only [libFp]; split <;> decide)
  obtain ⟨hrate, hall⟩ := h.1 r hr
  exact ⟨hopen, r, hr, hrate, fun ch hch => hall (fun _ _ => rfl) ch hch, h.2.1⟩

/-- The paths on which the handle is treated as intended: when the open
succeeds and the call reaches line 49, `edfclose_file` is called exactly once,
on the opened handle, and no library call on that handle follows it (line 49
is reached whenever the signal count and the sample counts the library reports
are not negative, memory being sufficient); when the open fails,
`edfclose_file` is never called and no call is made with the invalid
handle. -/
theorem readEDFFile_close_discipline {α : Type} [Zero α] (lib : EdfLib α) (u : Indeterminate)
    (filename : String) :
    (0 ≤ handleOf lib filename → ∀ r, (readEDFFile lib u filename).result = .ok r →
      ∃ before after,
        (readEDFFile lib u filename).trace =
          before ++ [.edfclose_file (handleOf lib filename)] ++ after ∧
        (∀ e ∈ before, e.isClose = false) ∧
        (∀ e ∈ after, e.isClose = false ∧ e.handle ≠ some (handleOf lib filename))) ∧
    (0 ≤ handleOf lib filename →
      0 ≤ lib.edf_get_signal_count (handleOf lib filename) →
      (∀ ch : Nat, ch < (lib.edf_get_signal_count (handleOf lib filename)).toNat →
        0 ≤ lib.edf_get_sample_count (handleOf lib filename) ch) →
      ∃ r, (readEDFFile lib u filename).result = .ok r) ∧
    (handleOf lib filename < 0 → ∀ e ∈ (readEDFFile lib u filename).trace,
      e.isClose = false ∧ e.handle ≠ some (handleOf lib filename)) := by
  refine ⟨?_, ?_, ?_⟩
  · intro hopen r hr
    obtain ⟨hcount, hsc⟩ := readEDFFile_ok_counts lib u filename r hopen hr
    rw [readEDFFile_completes lib u filename hopen hcount hsc]
    refine ⟨_, _, rfl, tracePrefix_no_close lib filename _, ?_⟩
    intro e he
    obtain ⟨_, hnone, hclose, _⟩ := printMetadata_events _ e he
    exact ⟨hclose, by simp [hnone]⟩
  · intro hopen hcount hsc
    exact ⟨_, by rw [readEDFFile_completes lib u filename hopen hcount hsc]⟩
  · intro hopen e he
    rw [readEDFFile_open_failed lib u filename hopen] at he
    simp only [List.mem_cons, List.mem_singleton, List.not_mem_nil, or_false] at he
    rcases he with rfl | rfl <;> exact ⟨rfl, by simp [Event.handle]⟩

/-- The file `libFp` is opened on handle `0` and closed once, after every
other call on the handle; `libNoFile` is never closed. -/
theorem readEDFFile_close_discipline_witness :
    (0 ≤ handleOf libFp "a.edf" ∧
      ∃ before after,
        (readEDFFile libFp ⟨0, 0⟩ "a.edf").trace = before ++ [.edfclose_file 0] ++ after ∧
        (∀ e ∈ before, e.isClose = false) ∧
        (∀ e ∈ after, e.isClose = false ∧ e.handle ≠ some 0)) ∧
    (handleOf libNoFile "missing.edf" < 0 ∧
      ∀ e ∈ (readEDFFile libNoFile ⟨0, 0⟩ "missing.edf").trace,
        e.isClose = false ∧ e.handle ≠ some (-1)) := by
  have hFp := readEDFFile_close_discipline libFp ⟨0, 0⟩ "a.edf"
  have hopen : 0 ≤ handleOf libFp "a.edf" := by decide
  obtain ⟨r, hr⟩ := hFp.2.1 hopen (by decide)
    (by intro ch _; simp only [libFp]; split <;> decide)
  exact ⟨⟨hopen, hFp.1 hopen r hr⟩, by decide,
    (readEDFFile_close_discipline libNoFile ⟨0, 0⟩ "missing.edf").2.2 (by decide)⟩

/-- C10 is broken by the code on a path that throws: `libNeg` opens the file
on handle `3` and answers `-1` for the sample count of signal 0; the `resize`
of line 40 throws `std::length_error`, the call leaves before the
`edfclose_file` of line 49, and the opened handle is never closed, although
the open succeeded and library calls were made on the handle. -/
theorem readEDFFile_unclosed_on_throw :
    0 ≤ handleOf libNeg "neg.edf" ∧
    (readEDFFile libNeg ⟨0, 0⟩ "neg.edf").result = .error .length_error ∧
    (readEDFFile libNeg ⟨0, 0⟩ "neg.edf").trace.filter Event.isLibraryCall =
      [.edfopen_file_readonly "neg.edf" 2, .edf_get_signal_count 3,
       .edf_get_sample_frequency 3 0, .edf_get_label 3 0, .edf_get_sample_count 3 0] ∧
    (readEDFFile libNeg ⟨0, 0⟩ "neg.edf").trace.filter Event.isClose = [] := by
  refine ⟨by decide, rfl, by decide, by decide⟩

/-- C4, as the code has it: a sample read that delivers fewer samples than the
channel's declared count raises no error.  For a file that opens, every value
`readEDFFile` returns holds for each channel a sequence of the declared
length: the samples the read delivered, followed by `0.0` at every position
the read did not deliver.  The call does return a value whenever the reported
counts are not negative, whatever the reads deliver. -/
theorem readEDFFile_short_read_padded {α : Type} [Zero α] (lib : EdfLib α) (u : Indeterminate)
    (filename : String) (hopen : 0 ≤ handleOf lib filename) :
    (∀ r, (readEDFFile lib u filename).result = .ok r →
      ∀ (ch : Nat) (hch : ch < r.signals.length),
        r.signals.get ⟨ch, hch⟩ =
          (lib.edf_read_physical_samples (handleOf lib filename) ch
              (lib.edf_get_sample_count (handleOf lib filename) ch)).take
            (lib.edf_get_sample_count (handleOf lib filename) ch).toNat ++
          List.replicate
            ((lib.edf_get_sample_count (handleOf lib filename) ch).toNat -
              (lib.edf_read_physical_samples (handleOf lib filename) ch
                (lib.edf_get_sample_count (handleOf lib filename) ch)).length) 0) ∧
    (0 ≤ lib.edf_get_signal_count (handleOf lib filename) →
      (∀ ch : Nat, ch < (lib.edf_get_signal_count (handleOf lib filename)).toNat →
        0 ≤ lib.edf_get_sample_count (handleOf lib filename) ch) →
      ∃ r, (readEDFFile lib u filename).result = .ok r) := by
  constructor
  · intro r hr
    obtain ⟨hcount, hsc⟩ := readEDFFile_ok_counts lib u filename r hopen hr
    rw [readEDFFile_completes lib u filename hopen hcount hsc] at hr
    have hr2 : decoded lib (handleOf lib filename) = r := by simpa using hr
    subst hr2
    intro ch hch
    have hget : (decoded lib (handleOf lib filename)).signals.get ⟨ch, hch⟩ =
        channelBuffer lib (handleOf lib filename) ch := by
      simp [decoded]
    rw [hget, channelBuffer, writeInto_replicate]
  · intro hcount hsc
    exact ⟨_, by rw [readEDFFile_completes lib u filename hopen hcount hsc]⟩

/-- Witness of C4 as amended: the cut-off file `libShort` declares four
samples and delivers `5, 7`; the value returned holds `5, 7, 0, 0`. -/
theorem readEDFFile_short_read_padded_witness :
    0 ≤ handleOf libShort "cut.edf" ∧
    ∃ r, (readEDFFile libShort ⟨0, 0⟩ "cut.edf").result = .ok r ∧
      r.signals[0]? = some [5, 7, 0, 0] := by
  have hopen : 0 ≤ handleOf libShort "cut.edf" := by decide
  have h := readEDFFile_short_read_padded libShort ⟨0, 0⟩ "cut.edf" hopen
  obtain ⟨r, hr⟩ := h.2 (by decide) (by intro ch _; show (0 : Int) ≤ 4; decide)
  have hlen : r.signals.length = 1 := by
    have := (readEDFFile_of_open_sizes libShort ⟨0, 0⟩ "cut.edf" r hopen hr).1
    have hn : r.numChannels = 1 := by
      have hc := readEDFFile_ok_counts libShort ⟨0, 0⟩ "cut.edf" r hopen hr
      rw [readEDFFile_completes libShort ⟨0, 0⟩ "cut.edf" hopen hc.1 hc.2] at hr
      have hr2 : decoded libShort (handleOf libShort "cut.edf") = r := by simpa using hr
      rw [← hr2]; rfl
    omega
  refine ⟨hopen, r, hr, ?_⟩
  rw [List.getElem?_eq_getElem (by omega)]
  have h0 := h.1 r hr 0 (by omega)
  simp only [List.get_eq_getElem] at h0
  rw [h0]
  simp [libShort]

/-- C4 fails as stated: on the cut-off file `libShort` the read of channel 0
delivers two samples where four are declared, and `readEDFFile` returns a
value, not an error, whose sequence for channel 0 ends in two zeros that were
never read from the file. -/
theorem readEDFFile_short_read_returns :
    (libShort.edf_read_physical_samples 0 0 (libShort.edf_get_sample_count 0 0)).length <
      (libShort.edf_get_sample_count 0 0).toNat ∧
    (readEDFFile libShort ⟨0, 0⟩ "cut.edf").result =
      .ok { signals := [[5, 7, 0, 0]], channelLabels := ["Fp1"],
            sampleRate := 256, numChannels := 1 } := by
  refine ⟨by decide, ?_⟩
  rw [readEDFFile_completes libShort ⟨0, 0⟩ "cut.edf" (by decide) (by decide)
    (by intro ch _; show (0 : Int) ≤ 4; decide)]
  simp [decoded, channelBuffer, writeInto, libShort, List.range_succ, List.replicate]

/-- C6, as the code has it: `readEDFFile` writes to the console on every path
that returns.  When the open fails it writes one line to standard error,
"Error opening EDF file: " and the file name.  When the file opens and the
call returns `r`, it writes to standard output the two lines of lines 23-24
followed by what `printMetadata` prints for `r`, and nothing else. -/
theorem readEDFFile_console_output {α : Type} [Zero α] (lib : EdfLib α) (u : Indeterminate)
    (filename : String) :
    (handleOf lib filename < 0 →
      (readEDFFile lib u filename).trace.filter Event.isConsole =
        [.cerr ("Error opening EDF file: " ++ filename ++ "\n")]) ∧
    (0 ≤ handleOf lib filename → ∀ r, (readEDFFile lib u filename).result = .ok r →
      (readEDFFile lib u filename).trace.filter Event.isConsole =
        [.cout ("EDF File Loaded: " ++ filename ++ "\n"),
         .cout ("Channels: " ++ toString r.numChannels ++ " | Sample Rate: "
            ++ toString r.sampleRate ++ " Hz\n")] ++ printMetadata r) := by
  constructor
  · intro hopen
    rw [readEDFFile_open_failed lib u filename hopen]
    simp [List.filter, Event.isConsole]
  · intro hopen r hr
    obtain ⟨hcount, hsc⟩ := readEDFFile_ok_counts lib u filename r hopen hr
    rw [readEDFFile_completes lib u filename hopen hcount hsc] at hr ⊢
    have hr2 : decoded lib (handleOf lib filename) = r := by simpa using hr
    subst hr2
    simp only [List.filter_append, tracePrefix_console, printMetadata_console]
    simp [List.filter, Event.isConsole, decoded]

/-- Witness of C6 as amended: the console writes of a failed open
(`libNoFile`) and of a completed read (`libFp`). -/
theorem readEDFFile_console_output_witness :
    (handleOf libNoFile "missing.edf" < 0 ∧
      (readEDFFile libNoFile ⟨0, 0⟩ "missing.edf").trace.filter Event.isConsole =
        [.cerr ("Error opening EDF file: " ++ "missing.edf" ++ "\n")]) ∧
    (0 ≤ handleOf libFp "a.edf" ∧
      ∃ r, (readEDFFile libFp ⟨0, 0⟩ "a.edf").result = .ok r ∧
        (readEDFFile libFp ⟨0, 0⟩ "a.edf").trace.filter Event.isConsole =
          [.cout ("EDF File Loaded: " ++ "a.edf" ++ "\n"),
           .cout ("Channels: " ++ toString r.numChannels ++ " | Sample Rate: "
              ++ toString r.sampleRate ++ " Hz\n")] ++ printMetadata r) := by
  have hopen : 0 ≤ handleOf libFp "a.edf" := by decide
  obtain ⟨r, hr⟩ := readEDFFile_libFp_returns hopen
  exact ⟨⟨by decide,
      (readEDFFile_console_output libNoFile ⟨0, 0⟩ "missing.edf").1 (by decide)⟩,
    hopen, r, hr, (readEDFFile_console_output libFp ⟨0, 0⟩ "a.edf").2 hopen r hr⟩

/-- C6 fails as stated: a failed open writes a line to standard error, and a
completed read of the two channel file `libFp` writes nine pieces of text to
standard output. -/
theorem readEDFFile_writes_console :
    (readEDFFile libNoFile ⟨0, 0⟩ "missing.edf").trace.filter Event.isConsole =
      [.cerr "Error opening EDF file: missing.edf\n"] ∧
    (readEDFFile libFp ⟨0, 0⟩ "a.edf").trace.filter Event.isConsole =
      [.cout "EDF File Loaded: a.edf\n",
       .cout "Channels: 2 | Sample Rate: 256 Hz\n",
       .cout "=== EDF File Metadata ===\n",
       .cout "Number of Channels: 2\n",
       .cout "Sample Rate: 256 Hz\n",
       .cout "Channels: ",
       .cout "Fp1 ",
       .cout "Fp2 ",
       .cout "\n"] := by
  refine ⟨by decide, by decide⟩

/-- C7 fails on the open-failure path: two calls for the same file, to which
the library gives the same answers, return values that differ in `sampleRate`
and in `numChannels`, because both members are returned uninitialised. -/
theorem readEDFFile_open_failure_not_reproducible :
    handleOf libNoFile "missing.edf" < 0 ∧
    ∃ r1 r2,
      (readEDFFile libNoFile ⟨0, 0⟩ "missing.edf").result = .ok r1 ∧
      (readEDFFile libNoFile ⟨256, 7⟩ "missing.edf").result = .ok r2 ∧
      r1.sampleRate ≠ r2.sampleRate ∧ r1.numChannels ≠ r2.numChannels ∧ r1 ≠ r2 :=
  ⟨by decide, EEGData.declared ⟨0, 0⟩, EEGData.declared ⟨256, 7⟩, rfl, rfl,
    by decide, by decide, by decide⟩

/-- C8 fails on the open-failure path: the value returned has empty `signals`
and `channelLabels` while `numChannels` holds whatever the uninitialised
member held, here 7. -/
theorem readEDFFile_open_failure_numChannels :
    handleOf libNoFile "missing.edf" < 0 ∧
    ∃ r, (readEDFFile libNoFile ⟨256, 7⟩ "missing.edf").result = .ok r ∧
      r.numChannels = 7 ∧ r.signals.length = 0 ∧ r.channelLabels.length = 0 ∧
      ¬ (r.numChannels = (r.signals.length : Int)) :=
  ⟨by decide, EEGData.declared ⟨256, 7⟩, rfl, rfl, rfl, rfl, by decide⟩

/-- C3, as the formula has it: when the file opens and the library delivers,
for every channel, the physical values `d * gain + offset` of the channel's
digital samples, `readEDFFile` returns a value whose sequence for each channel
is exactly these physical values, in order.  For digital range -32768..32767
and physical range -100.0..100.0, digital sample 0 decodes to the offset,
which is 20/13107, about +0.0015 (positive), and digital sample 32767 decodes
to 100. -/
theorem readEDFFile_physical_samples (lib : EdfLib ℚ) (u : Indeterminate) (filename : String)
    (cal : Nat → Calibration) (digital : Nat → List Int)
    (hopen : 0 ≤ handleOf lib filename)
    (hcount : 0 ≤ lib.edf_get_signal_count (handleOf lib filename))
    (hsc : ∀ ch : Nat, ch < (lib.edf_get_signal_count (handleOf lib filename)).toNat →
      lib.edf_get_sample_count (handleOf lib filename) ch = ((digital ch).length : Int))
    (hread : ∀ ch : Nat, ch < (lib.edf_get_signal_count (handleOf lib filename)).toNat →
      lib.edf_read_physical_samples (handleOf lib filename) ch
          (lib.edf_get_sample_count (handleOf lib filename) ch) =
        (digital ch).map (cal ch).physical) :
    (∃ r, (readEDFFile lib u filename).result = .ok r ∧
      (r.signals.length : Int) = lib.edf_get_signal_count (handleOf lib filename) ∧
      ∀ (ch : Nat) (hch : ch < r.signals.length),
        r.signals.get ⟨ch, hch⟩ = (digital ch).map (cal ch).physical) ∧
    cal16.physical 0 = cal16.offset ∧ cal16.offset = 20 / 13107 ∧
    |cal16.physical 0 - 15 / 10000| ≤ 1 / 10000 ∧
    cal16.physical 32767 = 100 := by
  have hsc0 : ∀ ch : Nat, ch < (lib.edf_get_signal_count (handleOf lib filename)).toNat →
      0 ≤ lib.edf_get_sample_count (handleOf lib filename) ch := by
    intro ch hch
    rw [hsc ch hch]
    omega
  refine ⟨⟨decoded lib (handleOf lib filename), ?_, ?_, ?_⟩, ?_, ?_, ?_, ?_⟩
  · rw [readEDFFile_completes lib u filename hopen hcount hsc0]
  · simp [decoded, hcount]
  · intro ch hch
    have hlt : ch < (lib.edf_get_signal_count (handleOf lib filename)).toNat := by
      simpa [decoded] using hch
    have hget : (decoded lib (handleOf lib filename)).signals.get ⟨ch, hch⟩ =
        channelBuffer lib (handleOf lib filename) ch := by
      simp [decoded]
    rw [hget, channelBuffer, writeInto_replicate, hread ch hlt, hsc ch hlt]
    simp
  · simp [Calibration.physical]
  · norm_num [Calibration.offset, Calibration.gain, cal16]
  · rw [abs_le]
    constructor <;> norm_num [Calibration.physical, Calibration.offset, Calibration.gain, cal16]
  · norm_num [Calibration.physical, Calibration.offset, Calibration.gain, cal16]

/-- Witness of C3 as amended: the calibrated one channel file `libCal` with
digital samples `0` and `32767`. -/
theorem readEDFFile_physical_samples_witness :
    0 ≤ handleOf libCal "cal.edf" ∧
    (∃ r, (readEDFFile libCal ⟨0, 0⟩ "cal.edf").result = .ok r ∧
      (r.signals.length : Int) = 1 ∧
      ∀ (ch : Nat) (hch : ch < r.signals.length),
        r.signals.get ⟨ch, hch⟩ = [(0 : Int), 32767].map cal16.physical) ∧
    cal16.physical 0 = cal16.offset ∧ cal16.offset = 20 / 13107 ∧
    |cal16.physical 0 - 15 / 10000| ≤ 1 / 10000 ∧
    cal16.physical 32767 = 100 :=
  ⟨by decide,
   readEDFFile_physical_samples libCal ⟨0, 0⟩ "cal.edf" (fun _ => cal16)
    (fun _ => [0, 32767]) (by decide) (by decide) (fun _ _ => rfl) (fun _ _ => rfl)⟩

/-- C3 fails as stated: in the calibrated file `libCal` digital sample 0 is
stored as the offset 20/13107, which is positive and more than 0.003 away
from -0.0015. -/
theorem readEDFFile_offset_sign :
    (readEDFFile libCal ⟨0, 0⟩ "cal.edf").result =
      .ok { signals := [[cal16.physical 0, cal16.physical 32767]], channelLabels := ["Fp1"],
            sampleRate := 256, numChannels := 1 } ∧
    cal16.physical 0 = 20 / 13107 ∧ 0 < cal16.physical 0 ∧
    ¬ (|cal16.physical 0 - (-15 / 10000)| ≤ 3 / 1000) := by
  have hval : cal16.physical 0 = 20 / 13107 := by
    norm_num [Calibration.physical, Calibration.offset, Calibration.gain, cal16]
  refine ⟨?_, hval, ?_, ?_⟩
  · rw [readEDFFile_completes libCal ⟨0, 0⟩ "cal.edf" (by decide) (by decide)
      (by intro ch _; show (0 : Int) ≤ 2; decide)]
    simp [decoded, channelBuffer, writeInto, libCal, List.range_succ, List.replicate]
  · rw [hval]; norm_num
  · rw [hval, abs_le]; norm_num

end Brainground
